import Mathlib

/-!
Shallow embedding of the sentence-level scoring pipeline of
`sentiment/text_insights_relevant.py` and `sentiment/text_insights_specific.py`:
sentence segmentation (the regex fallback path), batched classification,
label-to-scalar band mapping, trailing moving average (numpy valid-mode
convolution) and CSV row materialization.  Python floats are modelled as exact
rationals, Python strings as Lean strings, and a classifier result dict as a
record with the two fields the pipeline reads.
-/

/-- The ASCII whitespace class of Python's regex `\s` and of `str.strip()`
(Unicode whitespace beyond ASCII never occurs in the transcripts and is not
modelled). -/
def isPySpace (c : Char) : Bool :=
  c == ' ' || c == '\t' || c == '\n' || c == '\r' || c == '\x0b' || c == '\x0c'

/-- The sentence-terminal punctuation class `[.!?]` of the splitter regex
`(?<=[.!?])\s+` used by `naive_sentence_split`. -/
def isTermPunct (c : Char) : Bool :=
  c == '.' || c == '!' || c == '?'

/-- Python `str.strip()` on a list of characters: drop leading and trailing
whitespace. -/
def pyStrip (l : List Char) : List Char :=
  (((l.dropWhile isPySpace).reverse).dropWhile isPySpace).reverse

/-- Whether the most recently consumed character (head of the reversed
accumulator) is sentence-terminal punctuation: the lookbehind `(?<=[.!?])`
of the splitter regex. -/
def accEndsTerminal : List Char → Bool
  | p :: _ => isTermPunct p
  | [] => false

/-- `re.split(r"(?<=[.!?])\s+", text)`: the pieces of the text delimited by
maximal whitespace runs that immediately follow `.`, `!` or `?`.  The second
argument accumulates the current piece in reverse. -/
def splitOnTerminalWs : List Char → List Char → List (List Char)
  | [], acc => [acc.reverse]
  | c :: rest, acc =>
    if isPySpace c && accEndsTerminal acc then
      acc.reverse :: splitOnTerminalWs (rest.dropWhile isPySpace) []
    else
      splitOnTerminalWs rest (c :: acc)
termination_by l _ => l.length
decreasing_by
  · exact Nat.lt_succ_of_le (List.dropWhile_suffix isPySpace).length_le
  · exact Nat.lt_succ_self _

/-- `naive_sentence_split` (identical in both pipeline files): regex-split the
stripped text at whitespace following terminal punctuation, strip each piece,
drop the pieces that strip to nothing. -/
def naive_sentence_split (text : String) : List String :=
  let parts := splitOnTerminalWs (pyStrip text.data) []
  ((parts.map pyStrip).filter (fun p => !p.isEmpty)).map (fun p => String.mk p)

/-- `split_sentences` with the optional spaCy model unavailable, which is the
fallback path the specification describes: strip the input, return `[]` when
nothing is left, otherwise delegate to `naive_sentence_split` on the stripped
text. -/
def split_sentences (text : String) : List String :=
  if (pyStrip text.data).isEmpty then []
  else naive_sentence_split (String.mk (pyStrip text.data))

/-- Whether the text contains sentence-terminal punctuation immediately
followed by whitespace, i.e. a match site of the splitter regex. -/
def hasSplitPoint : List Char → Bool
  | a :: b :: t => (isTermPunct a && isPySpace b) || hasSplitPoint (b :: t)
  | _ => false

/-- One classifier result dict `{"label": ..., "score": ...}` as the pipeline
reads it (the two `res.get` accesses in `main`). -/
structure HFResult where
  label : String
  score : ℚ
deriving DecidableEq

/-- `run_inference` (identical in both pipeline files): submit contiguous
slices `sentences[i:i+batch_size]` to the classifier in input order and
concatenate the returned lists.  The Python loop `range(0, n, batch_size)`
presupposes a positive step (`range` raises on step 0), so `batch_size = 0`
is outside the modelled domain and mapped to `[]`.  The `isinstance(out,
dict)` branch of the source only fires when the classifier is handed a bare
string, which never happens for list-shaped batches, and is therefore not
modelled. -/
def run_inference {α : Type} (clf : List String → List α)
    (sentences : List String) (batch_size : Nat) : List α :=
  if _h : sentences.isEmpty then []
  else if _hb : batch_size = 0 then []
  else
    clf (sentences.take batch_size) ++
      run_inference clf (sentences.drop batch_size) batch_size
termination_by sentences.length
decreasing_by
  have h1 : 0 < sentences.length := by
    cases sentences with
    | nil => simp [List.isEmpty] at _h
    | cons a t => simp
  have h2 : 0 < batch_size := Nat.pos_of_ne_zero _hb
  simpa [List.length_drop] using Nat.sub_lt h1 h2

/-- Python `int(...)` as applied to the digit suffix of a classifier label
(optional sign and decimal digits; the extra tolerance of `int` for
surrounding whitespace and underscore digit separators never arises for
labels of the form `LABEL_<n>`). -/
def pyInt? (s : String) : Option Int :=
  s.toInt?

/-- `resolve_label_name` (identical in both pipeline files): parse the digits
after `LABEL_`, replace the readable name through `id2label` when a mapping
exists for the parsed id, and collapse an unparsed id to the sentinel `-1`.
The `id2label` dict is modelled as an association list (`none` models the
absent dict; the empty dict is falsy in Python and looks up to nothing here,
which coincides). -/
def resolve_label_name (raw_label : String) (id2label : Option (List (Int × String))) :
    String × Int :=
  let numeric_id : Option Int :=
    if raw_label.startsWith "LABEL_" then pyInt? (raw_label.drop 6) else none
  let readable : String :=
    match id2label, numeric_id with
    | some d, some n =>
      match d.lookup n with
      | some name => name
      | none => raw_label
    | _, _ => raw_label
  (readable, numeric_id.getD (-1))

/-- The base-offset dict `{0: 0.00, 1: 0.34, 2: 0.67}` with `.get` default
`0.00`, from `relevance_0_to_1`. -/
def rel01_base (label_id : Int) : ℚ :=
  if label_id = 0 then 0
  else if label_id = 1 then 34/100
  else if label_id = 2 then 67/100
  else 0

/-- `relevance_0_to_1`: band map into [0,1], `max(0.0, min(1.0, base +
score * 0.33))`. -/
def relevance_0_to_1 (label_id : Int) (score : ℚ) : ℚ :=
  max 0 (min 1 (rel01_base label_id + score * (33/100)))

/-- The base-offset dict `{0: -1.00, 1: -0.33, 2: 0.34}` with `.get` default
`-1.00`, from `relevance_minus1_to_1`. -/
def relm1_base (label_id : Int) : ℚ :=
  if label_id = 0 then -1
  else if label_id = 1 then -33/100
  else if label_id = 2 then 34/100
  else -1

/-- `relevance_minus1_to_1`: band map into [-1,1], `max(-1.0, min(1.0, base +
score * 0.66))`. -/
def relevance_minus1_to_1 (label_id : Int) (score : ℚ) : ℚ :=
  max (-1) (min 1 (relm1_base label_id + score * (66/100)))

/-- The base-offset dict of `specificity_0_to_1` (same numerals as the
relevance one, embedded separately from `text_insights_specific.py`). -/
def spec01_base (label_id : Int) : ℚ :=
  if label_id = 0 then 0
  else if label_id = 1 then 34/100
  else if label_id = 2 then 67/100
  else 0

/-- `specificity_0_to_1` from `text_insights_specific.py`. -/
def specificity_0_to_1 (label_id : Int) (score : ℚ) : ℚ :=
  max 0 (min 1 (spec01_base label_id + score * (33/100)))

/-- The base-offset dict of `specificity_minus1_to_1`. -/
def specm1_base (label_id : Int) : ℚ :=
  if label_id = 0 then -1
  else if label_id = 1 then -33/100
  else if label_id = 2 then 34/100
  else -1

/-- `specificity_minus1_to_1` from `text_insights_specific.py`. -/
def specificity_minus1_to_1 (label_id : Int) (score : ℚ) : ℚ :=
  max (-1) (min 1 (specm1_base label_id + score * (66/100)))

/-- Python `round(x, 6)` modelled as exact rational rounding to 6 decimal
places (round-half-up at the unreachable exact ties; Python rounds the
nearest double, which never sits exactly on a tie for these scores). -/
def round6 (q : ℚ) : ℚ :=
  ((round (q * 1000000) : ℤ) : ℚ) / 1000000

/-- Dot product of two equal-role lists, truncating at the shorter one (the
inner sum of a discrete convolution). -/
def dotProd (a b : List ℚ) : ℚ :=
  ((a.zip b).map (fun p => p.1 * p.2)).sum

/-- `np.convolve(a, k, mode="valid")`: slide the reversed shorter array over
the longer one, keeping only positions of complete overlap; output length is
`max - min + 1`. -/
def convolveValid (a k : List ℚ) : List ℚ :=
  if k.length ≤ a.length then
    (List.range (a.length - k.length + 1)).map (fun i => dotProd (a.drop i) k.reverse)
  else
    (List.range (k.length - a.length + 1)).map (fun i => dotProd (k.drop i) a.reverse)

/-- `moving_average` from `text_insights_relevant.py`: all-`None` for
`window <= 1` or empty input, otherwise `window - 1` leading `None`s followed
by the valid-mode convolution with the uniform kernel `np.ones(window) /
window`. -/
def moving_average (values : List ℚ) (window : Int) : List (Option ℚ) :=
  if window ≤ 1 ∨ values = [] then values.map (fun _ => none)
  else
    List.replicate (window.toNat - 1) (none : Option ℚ) ++
      (convolveValid values (List.replicate window.toNat ((1 : ℚ) / (window.toNat : ℚ)))).map some

/-- `moving_average` from `text_insights_specific.py` (textually identical to
the relevance one; embedded separately so the two can be compared). -/
def moving_average_s (values : List ℚ) (window : Int) : List (Option ℚ) :=
  if window ≤ 1 ∨ values = [] then values.map (fun _ => none)
  else
    List.replicate (window.toNat - 1) (none : Option ℚ) ++
      (convolveValid values (List.replicate window.toNat ((1 : ℚ) / (window.toNat : ℚ)))).map some

/-- One output row of the relevance pipeline; field names follow the CSV
columns (`relevance_m1_1` stands for the column `relevance_-1_1`, whose name
is not a Lean identifier). -/
structure Row where
  sentence_index : Nat
  sentence_text : String
  raw_label : String
  label_id : Int
  label_name : String
  score : ℚ
  relevance_0_1 : ℚ
  relevance_m1_1 : ℚ
  ma_relevance_0_1 : Option ℚ
deriving DecidableEq

/-- The row built for one `(idx, sentence, result)` triple in step 6 of
`main` (the moving-average cell starts out `None` and is filled later). -/
def mkRow (id2label : Option (List (Int × String))) (idx : Nat) (sent : String)
    (res : HFResult) : Row :=
  let readable_id := resolve_label_name res.label id2label
  { sentence_index := idx
    sentence_text := sent
    raw_label := res.label
    label_id := readable_id.2
    label_name := readable_id.1
    score := round6 res.score
    relevance_0_1 := round6 (relevance_0_to_1 readable_id.2 res.score)
    relevance_m1_1 := round6 (relevance_minus1_to_1 readable_id.2 res.score)
    ma_relevance_0_1 := none }

/-- The row-building loop `for idx, (sent, res) in enumerate(zip(sentences,
results))`, with `idx` starting at the first argument. -/
def buildRows (id2label : Option (List (Int × String))) :
    Nat → List String → List HFResult → List Row
  | idx, s :: ss, r :: rs => mkRow id2label idx s r :: buildRows id2label (idx + 1) ss rs
  | _, _, _ => []

/-- The unrounded `rel01_series` accumulated alongside the rows. -/
def rel01_series (id2label : Option (List (Int × String))) :
    List String → List HFResult → List ℚ
  | _ :: ss, r :: rs =>
    relevance_0_to_1 (resolve_label_name r.label id2label).2 r.score ::
      rel01_series id2label ss rs
  | _, _ => []

/-- Step 7 of `main`: `for r, ma_val in zip(rows, ma): r["ma_relevance_0_1"] =
None if ma_val is None else round(float(ma_val), 6)`.  Rows beyond the zip
keep their `None` cell (mutation semantics). -/
def applyMA : List Row → List (Option ℚ) → List Row
  | r :: rs, m :: ms =>
    { r with ma_relevance_0_1 := m.map round6 } :: applyMA rs ms
  | rs, _ => rs

/-- The `fieldnames` list of `write_csv` in `text_insights_relevant.py`. -/
def csv_fieldnames : List String :=
  ["sentence_index", "sentence_text", "raw_label", "label_id", "label_name",
   "score", "relevance_0_1", "relevance_-1_1", "ma_relevance_0_1"]

/-- The `fieldnames` list of `write_csv` in `text_insights_specific.py`. -/
def csv_fieldnames_s : List String :=
  ["sentence_index", "sentence_text", "raw_label", "label_id", "label_name",
   "score", "specificity_0_1", "specificity_-1_1", "ma_specificity_0_1"]

/-- How `csv.DictWriter` serializes the optional moving-average cell: `None`
becomes the empty string, a number its decimal rendering. -/
def optCell : Option ℚ → String
  | none => ""
  | some q => toString q

/-- The record `csv.DictWriter.writerow` emits for one row, one cell per
fieldname in order (CSV quoting is below the abstraction level of the table;
numeric cells are rendered canonically). -/
def rowRecord (r : Row) : List String :=
  [toString r.sentence_index, r.sentence_text, r.raw_label,
   toString r.label_id, r.label_name, toString r.score,
   toString r.relevance_0_1, toString r.relevance_m1_1,
   optCell r.ma_relevance_0_1]

/-- `write_csv` of `text_insights_relevant.py` as the sequence of records it
writes: the header row followed by one record per row. -/
def write_csv (rows : List Row) : List (List String) :=
  csv_fieldnames :: rows.map rowRecord

/-- `write_csv` of `text_insights_specific.py` (same records, specificity
header). -/
def write_csv_s (rows : List Row) : List (List String) :=
  csv_fieldnames_s :: rows.map rowRecord

/-- Steps 2-7 of `main` in `text_insights_relevant.py`, parametrized by the
per-sentence classifier `f` (the HuggingFace pipeline maps a list of
sentences to the list of their individual results, in order). -/
def mainRows (f : String → HFResult) (id2label : Option (List (Int × String)))
    (text : String) (batch_size : Nat) (ma_window : Int) : List Row :=
  let sentences := split_sentences text
  let results := run_inference (fun xs => xs.map f) sentences batch_size
  let rows := buildRows id2label 0 sentences results
  let series := rel01_series id2label sentences results
  let window : Int := max 0 ma_window
  if 2 ≤ window ∧ series ≠ [] then applyMA rows (moving_average series window)
  else rows

/-- Step 8 of `main`: the table written to the output destination. -/
def mainCsv (f : String → HFResult) (id2label : Option (List (Int × String)))
    (text : String) (batch_size : Nat) (ma_window : Int) : List (List String) :=
  write_csv (mainRows f id2label text batch_size ma_window)

/-- A concrete row with an absent moving-average cell, for checking the
serialized record shape. -/
def exampleRow : Row :=
  { sentence_index := 0
    sentence_text := "Hi."
    raw_label := "LABEL_0"
    label_id := 0
    label_name := "LABEL_0"
    score := 1/2
    relevance_0_1 := 33/200
    relevance_m1_1 := -67/100
    ma_relevance_0_1 := none }

/-! ### Helper lemmas about stripping and splitting -/

theorem dropWhile_head_false (p : Char → Bool) :
    ∀ (l : List Char) (c : Char) (t : List Char), l.dropWhile p = c :: t → p c = false := by
  intro l
  induction l with
  | nil => intro c t h; simp [List.dropWhile] at h
  | cons x xs ih =>
    intro c t h
    by_cases hx : p x
    · rw [List.dropWhile_cons_of_pos hx] at h
      exact ih c t h
    · rw [List.dropWhile_cons_of_neg hx] at h
      obtain ⟨rfl, rfl⟩ := List.cons.inj h
      simpa using hx

theorem dropWhile_idem (p : Char → Bool) (l : List Char) :
    (l.dropWhile p).dropWhile p = l.dropWhile p := by
  cases h : l.dropWhile p with
  | nil => rfl
  | cons c t =>
    rw [List.dropWhile_cons_of_neg]
    simp [dropWhile_head_false p l c t h]

theorem pyStrip_prefix (l : List Char) : pyStrip l <+: l.dropWhile isPySpace := by
  obtain ⟨u, hu⟩ := List.dropWhile_suffix (l := (l.dropWhile isPySpace).reverse) isPySpace
  refine ⟨u.reverse, ?_⟩
  have := congrArg List.reverse hu
  simpa [pyStrip, List.reverse_append] using this

theorem pyStrip_head (l : List Char) (c : Char) (t : List Char)
    (h : pyStrip l = c :: t) : isPySpace c = false := by
  obtain ⟨u, hu⟩ := pyStrip_prefix l
  rw [h] at hu
  exact dropWhile_head_false _ l c (t ++ u) (by rw [← hu]; simp)

theorem pyStrip_ne_nil (l : List Char) (c : Char) (hc : c ∈ l)
    (hs : isPySpace c = false) : pyStrip l ≠ [] := by
  have hc2 : c ∈ l.takeWhile isPySpace ++ l.dropWhile isPySpace := by
    rw [List.takeWhile_append_dropWhile]; exact hc
  have hca : c ∈ l.dropWhile isPySpace := by
    rcases List.mem_append.mp hc2 with h | h
    · exact absurd (List.mem_takeWhile_imp h) (by simp [hs])
    · exact h
  have hcr : c ∈ (l.dropWhile isPySpace).reverse := List.mem_reverse.mpr hca
  have hc3 : c ∈ (l.dropWhile isPySpace).reverse.takeWhile isPySpace ++
      (l.dropWhile isPySpace).reverse.dropWhile isPySpace := by
    rw [List.takeWhile_append_dropWhile]; exact hcr
  have hcd : c ∈ (l.dropWhile isPySpace).reverse.dropWhile isPySpace := by
    rcases List.mem_append.mp hc3 with h | h
    · exact absurd (List.mem_takeWhile_imp h) (by simp [hs])
    · exact h
  intro hnil
  rw [pyStrip, List.reverse_eq_nil_iff] at hnil
  rw [hnil] at hcd
  exact List.not_mem_nil c hcd

theorem pyStrip_idem (l : List Char) : pyStrip (pyStrip l) = pyStrip l := by
  cases h : pyStrip l with
  | nil => simp [pyStrip]
  | cons c t =>
    have hc : isPySpace c = false := pyStrip_head l c t h
    have hd : (l.dropWhile isPySpace).reverse.dropWhile isPySpace = (c :: t).reverse := by
      have : pyStrip l = ((l.dropWhile isPySpace).reverse.dropWhile isPySpace).reverse := rfl
      rw [this] at h
      rw [← h, List.reverse_reverse]
    calc pyStrip (c :: t)
        = (((c :: t).dropWhile isPySpace).reverse.dropWhile isPySpace).reverse := rfl
      _ = ((c :: t).reverse.dropWhile isPySpace).reverse := by
          rw [List.dropWhile_cons_of_neg (by simp [hc])]
      _ = (((l.dropWhile isPySpace).reverse.dropWhile isPySpace).dropWhile isPySpace).reverse := by
          rw [hd]
      _ = ((l.dropWhile isPySpace).reverse.dropWhile isPySpace).reverse := by
          rw [dropWhile_idem]
      _ = c :: t := h

theorem hasSplitPoint_cons (a : Char) (l : List Char)
    (h : hasSplitPoint (a :: l) = false) : hasSplitPoint l = false := by
  cases l with
  | nil => rfl
  | cons b t =>
    simp only [hasSplitPoint, Bool.or_eq_false_iff] at h
    exact h.2

theorem hasSplitPoint_append_right (x y : List Char)
    (h : hasSplitPoint (x ++ y) = false) : hasSplitPoint y = false := by
  induction x with
  | nil => simpa using h
  | cons a x ih => exact ih (hasSplitPoint_cons a (x ++ y) (by simpa using h))

theorem hasSplitPoint_append_left (x y : List Char)
    (h : hasSplitPoint (x ++ y) = false) : hasSplitPoint x = false := by
  induction x with
  | nil => rfl
  | cons a x ih =>
    cases x with
    | nil => rfl
    | cons b t =>
      simp only [List.cons_append] at h ih
      simp only [hasSplitPoint, Bool.or_eq_false_iff] at h ⊢
      exact ⟨h.1, by
        have := ih (by simpa only [List.cons_append, hasSplitPoint] using h.2)
        simpa only [hasSplitPoint] using this⟩

theorem hasSplitPoint_pair (x : List Char) (a b : Char) (y : List Char)
    (h : hasSplitPoint (x ++ a :: b :: y) = false) :
    (isTermPunct a && isPySpace b) = false := by
  have h2 := hasSplitPoint_append_right x (a :: b :: y) h
  simp only [hasSplitPoint, Bool.or_eq_false_iff] at h2
  exact h2.1

theorem splitOnTerminalWs_no_split :
    ∀ (l acc : List Char), hasSplitPoint (acc.reverse ++ l) = false →
      splitOnTerminalWs l acc = [acc.reverse ++ l] := by
  intro l
  induction l with
  | nil => intro acc _; simp [splitOnTerminalWs]
  | cons c rest ih =>
    intro acc h
    have hguard : (isPySpace c && accEndsTerminal acc) = false := by
      cases acc with
      | nil => simp [accEndsTerminal]
      | cons p acc2 =>
        have hp : (isTermPunct p && isPySpace c) = false := by
          apply hasSplitPoint_pair acc2.reverse p c rest
          simpa [List.append_assoc] using h
        simp only [accEndsTerminal]
        rw [Bool.and_comm]
        exact hp
    rw [splitOnTerminalWs, hguard]
    simp only [Bool.false_eq_true, if_false]
    have := ih (c :: acc) (by simpa [List.append_assoc] using h)
    simpa [List.append_assoc] using this

theorem splitOnTerminalWs_head_prefix :
    ∀ (l acc : List Char), ∃ p rest, splitOnTerminalWs l acc = p :: rest ∧
      acc.reverse <+: p := by
  intro l
  induction l with
  | nil =>
    intro acc
    exact ⟨acc.reverse, [], by simp [splitOnTerminalWs], List.prefix_refl _⟩
  | cons c r ih =>
    intro acc
    by_cases hg : (isPySpace c && accEndsTerminal acc) = true
    · refine ⟨acc.reverse, splitOnTerminalWs (r.dropWhile isPySpace) [], ?_, List.prefix_refl _⟩
      rw [splitOnTerminalWs, hg]
      simp
    · obtain ⟨p, rest, heq, hpre⟩ := ih (c :: acc)
      refine ⟨p, rest, ?_, ?_⟩
      · rw [splitOnTerminalWs, Bool.eq_false_iff.mpr hg]
        simpa using heq
      · refine List.IsPrefix.trans ?_ hpre
        simp

/-! ### Helper lemmas about inference, rows and smoothing -/

theorem run_inference_nil {α : Type} (clf : List String → List α) (bs : Nat) :
    run_inference clf [] bs = [] := by
  rw [run_inference]
  simp

theorem run_inference_map {α : Type} (f : String → α) (bs : Nat) (hbs : 1 ≤ bs) :
    ∀ s : List String, run_inference (fun xs => xs.map f) s bs = s.map f := by
  have key : ∀ (n : Nat) (s : List String), s.length ≤ n →
      run_inference (fun xs => xs.map f) s bs = s.map f := by
    intro n
    induction n with
    | zero =>
      intro s hs
      have : s = [] := List.eq_nil_of_length_eq_zero (Nat.le_zero.mp hs)
      subst this
      exact run_inference_nil _ bs
    | succ n ih =>
      intro s hs
      rw [run_inference]
      by_cases h : s.isEmpty
      · have : s = [] := by simpa [List.isEmpty_iff] using h
        subst this
        simp
      · have hb : ¬(bs = 0) := by omega
        rw [dif_neg h, dif_neg hb]
        have hlen : (s.drop bs).length ≤ n := by
          have h1 : 0 < s.length := by
            cases s with
            | nil => simp at h
            | cons a t => simp
          rw [List.length_drop]
          omega
        rw [ih (s.drop bs) hlen]
        show (s.take bs).map f ++ (s.drop bs).map f = s.map f
        rw [← List.map_append, List.take_append_drop]
  exact fun s => key s.length s le_rfl

theorem dotProd_replicate (c : ℚ) :
    ∀ (w : Nat) (l : List ℚ), dotProd l (List.replicate w c) = (l.take w).sum * c := by
  intro w
  induction w with
  | zero => intro l; simp [dotProd]
  | succ w ih =>
    intro l
    cases l with
    | nil => simp [dotProd]
    | cons x xs =>
      have hx : dotProd (x :: xs) (List.replicate (w + 1) c) =
          x * c + dotProd xs (List.replicate w c) := by
        simp [dotProd, List.replicate_succ]
      rw [hx, ih xs]
      simp [List.take_succ_cons, List.sum_cons]
      ring

theorem buildRows_length (d : Option (List (Int × String))) :
    ∀ (k : Nat) (s : List String) (rs : List HFResult),
      (buildRows d k s rs).length = min s.length rs.length := by
  intro k s
  induction s generalizing k with
  | nil => intro rs; simp [buildRows]
  | cons a ss ih =>
    intro rs
    cases rs with
    | nil => simp [buildRows]
    | cons r rs2 =>
      simp [buildRows, ih (k + 1) rs2, Nat.succ_min_succ]

theorem buildRows_getElem? (d : Option (List (Int × String))) :
    ∀ (s : List String) (rs : List HFResult) (k i : Nat) (a : String) (r : HFResult),
      s[i]? = some a → rs[i]? = some r →
      (buildRows d k s rs)[i]? = some (mkRow d (k + i) a r) := by
  intro s
  induction s with
  | nil => intro rs k i a r ha; simp at ha
  | cons x ss ih =>
    intro rs k i a r ha hr
    cases rs with
    | nil => simp at hr
    | cons y rs2 =>
      cases i with
      | zero =>
        simp only [List.getElem?_cons_zero, Option.some.injEq] at ha hr
        subst ha; subst hr
        simp [buildRows]
      | succ i =>
        simp only [List.getElem?_cons_succ] at ha hr
        have := ih rs2 (k + 1) i a r ha hr
        simp only [buildRows, List.getElem?_cons_succ]
        rw [this]
        congr 2
        omega

theorem applyMA_getElem? :
    ∀ (rows : List Row) (ma : List (Option ℚ)) (i : Nat),
      (applyMA rows ma)[i]? =
        match rows[i]?, ma[i]? with
        | some r, some m => some { r with ma_relevance_0_1 := m.map round6 }
        | some r, none => some r
        | none, _ => none := by
  intro rows
  induction rows with
  | nil =>
    intro ma i
    cases ma with
    | nil => simp [applyMA]
    | cons m ms => simp [applyMA]
  | cons r rs ih =>
    intro ma i
    cases ma with
    | nil =>
      simp only [applyMA, List.getElem?_nil]
      cases h : (r :: rs)[i]? <;> simp
    | cons m ms =>
      cases i with
      | zero => simp [applyMA]
      | succ i => simp [applyMA, ih ms i]

theorem applyMA_length (rows : List Row) :
    ∀ ma : List (Option ℚ), (applyMA rows ma).length = rows.length := by
  induction rows with
  | nil => intro ma; cases ma <;> simp [applyMA]
  | cons r rs ih =>
    intro ma
    cases ma with
    | nil => simp [applyMA]
    | cons m ms => simp [applyMA, ih ms]

/-! ### Clamp helpers -/

theorem clamp01_eq (x : ℚ) (h0 : 0 ≤ x) (h1 : x ≤ 1) : max 0 (min 1 x) = x := by
  rw [min_eq_right h1, max_eq_right h0]

theorem clampM1_eq (x : ℚ) (h0 : -1 ≤ x) (h1 : x ≤ 1) : max (-1) (min 1 x) = x := by
  rw [min_eq_right h1, max_eq_right h0]

/-- The per-label base offsets for the [0,1] mapping exactly as the
specification words them (label 0 → 0.00, label 1 → 0.34, label 2 → 0.67);
meaningful on label ids 0, 1, 2 only. -/
def specBandBase01 (l : Int) : ℚ :=
  if l = 0 then 0 else if l = 1 then 34/100 else 67/100

/-- The per-label base offsets for the [-1,1] mapping exactly as the
specification words them (-1.00 / -0.33 / +0.34). -/
def specBandBaseM1 (l : Int) : ℚ :=
  if l = 0 then -1 else if l = 1 then -33/100 else 34/100

/-! ### Claim theorems -/

/-- C1: for every label_id in {0,1,2} and confidence in [0,1], the [0,1]
score of each of the four mappers equals `base + confidence * 0.33` with
bases 0.00 / 0.34 / 0.67, clamped to [0,1], and the [-1,1] score equals
`base + confidence * 0.66` with bases -1.00 / -0.33 / +0.34, clamped to
[-1,1]; on this domain the clamp is moreover inactive, so the value is the
affine band expression itself. -/
theorem scalar_mapper_band_affine (l : Int) (c : ℚ)
    (hl : l = 0 ∨ l = 1 ∨ l = 2) (hc0 : 0 ≤ c) (hc1 : c ≤ 1) :
    relevance_0_to_1 l c = max 0 (min 1 (specBandBase01 l + c * (33/100))) ∧
    relevance_0_to_1 l c = specBandBase01 l + c * (33/100) ∧
    relevance_minus1_to_1 l c = max (-1) (min 1 (specBandBaseM1 l + c * (66/100))) ∧
    relevance_minus1_to_1 l c = specBandBaseM1 l + c * (66/100) ∧
    specificity_0_to_1 l c = max 0 (min 1 (specBandBase01 l + c * (33/100))) ∧
    specificity_minus1_to_1 l c = max (-1) (min 1 (specBandBaseM1 l + c * (66/100)))
    := by
  have e1 : rel01_base l = specBandBase01 l := by
    rcases hl with rfl | rfl | rfl <;> simp [rel01_base, specBandBase01]
  have e2 : relm1_base l = specBandBaseM1 l := by
    rcases hl with rfl | rfl | rfl <;> simp [relm1_base, specBandBaseM1]
  have e3 : spec01_base l = specBandBase01 l := by
    rcases hl with rfl | rfl | rfl <;> simp [spec01_base, specBandBase01]
  have e4 : specm1_base l = specBandBaseM1 l := by
    rcases hl with rfl | rfl | rfl <;> simp [specm1_base, specBandBaseM1]
  have hb1 : 0 ≤ specBandBase01 l ∧ specBandBase01 l + 33/100 ≤ 1 := by
    rcases hl with rfl | rfl | rfl <;> norm_num [specBandBase01]
  have hb2 : (-1 : ℚ) ≤ specBandBaseM1 l ∧ specBandBaseM1 l + 66/100 ≤ 1 := by
    rcases hl with rfl | rfl | rfl <;> norm_num [specBandBaseM1]
  refine ⟨?_, ?_, ?_, ?_, ?_, ?_⟩
  · rw [relevance_0_to_1, e1]
  · rw [relevance_0_to_1, e1]
    exact clamp01_eq _ (by nlinarith [hb1.1]) (by nlinarith [hb1.2])
  · rw [relevance_minus1_to_1, e2]
  · rw [relevance_minus1_to_1, e2]
    exact clampM1_eq _ (by nlinarith [hb2.1]) (by nlinarith [hb2.2])
  · rw [specificity_0_to_1, e3]
  · rw [specificity_minus1_to_1, e4]

/-- Witness for C1 at label 2, confidence 1/2: the score is
0.67 + 0.5 * 0.33 = 0.835. -/
theorem scalar_mapper_band_affine_check :
    ((2 : Int) = 0 ∨ (2 : Int) = 1 ∨ (2 : Int) = 2) ∧
    relevance_0_to_1 2 (1/2) = 167/200 := by
  refine ⟨by norm_num, ?_⟩
  have h := (scalar_mapper_band_affine 2 (1/2) (by norm_num) (by norm_num)
    (by norm_num)).2.1
  rw [h]
  norm_num [specBandBase01]

/-- C6: for every (even out-of-range) label_id and confidence, both mappings
of both pipelines are monotone in the confidence, and their outputs always
lie inside the documented clamp bounds, including for adversarial confidence
values outside [0,1]. -/
theorem scalar_mapper_monotone_clamped (l : Int) (c c2 : ℚ) (hcc : c ≤ c2) :
    relevance_0_to_1 l c ≤ relevance_0_to_1 l c2 ∧
    relevance_minus1_to_1 l c ≤ relevance_minus1_to_1 l c2 ∧
    specificity_0_to_1 l c ≤ specificity_0_to_1 l c2 ∧
    specificity_minus1_to_1 l c ≤ specificity_minus1_to_1 l c2 ∧
    0 ≤ relevance_0_to_1 l c ∧ relevance_0_to_1 l c ≤ 1 ∧
    -1 ≤ relevance_minus1_to_1 l c ∧ relevance_minus1_to_1 l c ≤ 1 ∧
    0 ≤ specificity_0_to_1 l c ∧ specificity_0_to_1 l c ≤ 1 ∧
    -1 ≤ specificity_minus1_to_1 l c ∧ specificity_minus1_to_1 l c ≤ 1 := by
  have hmul33 : c * (33/100) ≤ c2 * (33/100) := by nlinarith
  have hmul66 : c * (66/100) ≤ c2 * (66/100) := by nlinarith
  refine ⟨?_, ?_, ?_, ?_, ?_, ?_, ?_, ?_, ?_, ?_, ?_, ?_⟩ <;>
    first
      | exact max_le_max le_rfl (min_le_min le_rfl (by linarith))
      | exact le_max_left _ _
      | exact max_le (by norm_num) (min_le_left _ _)

/-- Witness for C6 at label 1, confidences 1/4 ≤ 3/4 (and an adversarial
confidence 5 staying clamped). -/
theorem scalar_mapper_monotone_clamped_check :
    (1 : ℚ)/4 ≤ 3/4 ∧
    relevance_0_to_1 1 (1/4) ≤ relevance_0_to_1 1 (3/4) ∧
    relevance_0_to_1 1 5 ≤ 1 := by
  refine ⟨by norm_num, (scalar_mapper_monotone_clamped 1 (1/4) (3/4) (by norm_num)).1, ?_⟩
  exact (scalar_mapper_monotone_clamped 1 5 5 le_rfl).2.2.2.2.2.1

/-- C7: for every confidence and every label_id outside {0,1,2} (such as the
unresolved sentinel -1), all four mappings produce the same value as label 0:
the `.get` default of the base dicts is the label-0 base in both files. -/
theorem unknown_label_band_zero (l : Int) (c : ℚ)
    (h0 : l ≠ 0) (h1 : l ≠ 1) (h2 : l ≠ 2) :
    relevance_0_to_1 l c = relevance_0_to_1 0 c ∧
    relevance_minus1_to_1 l c = relevance_minus1_to_1 0 c ∧
    specificity_0_to_1 l c = specificity_0_to_1 0 c ∧
    specificity_minus1_to_1 l c = specificity_minus1_to_1 0 c := by
  refine ⟨?_, ?_, ?_, ?_⟩ <;>
    simp [relevance_0_to_1, relevance_minus1_to_1, specificity_0_to_1,
      specificity_minus1_to_1, rel01_base, relm1_base, spec01_base, specm1_base,
      h0, h1, h2]

/-- Witness for C7 at the unresolved sentinel label -1, confidence 3/4. -/
theorem unknown_label_band_zero_check :
    relevance_0_to_1 (-1) (3/4) = relevance_0_to_1 0 (3/4) ∧
    relevance_minus1_to_1 (-1) (3/4) = relevance_minus1_to_1 0 (3/4) := by
  have h := unknown_label_band_zero (-1) (3/4) (by norm_num) (by norm_num) (by norm_num)
  exact ⟨h.1, h.2.1⟩

/-- C10: the relevance and specificity pipelines use pointwise identical
numeric transforms: the two [0,1] mappers, the two [-1,1] mappers and the
two moving_average functions agree on every input. -/
theorem relevance_specificity_identical :
    (∀ (l : Int) (c : ℚ), relevance_0_to_1 l c = specificity_0_to_1 l c ∧
      relevance_minus1_to_1 l c = specificity_minus1_to_1 l c) ∧
    ∀ (v : List ℚ) (w : Int), moving_average v w = moving_average_s v w :=
  ⟨fun _ _ => ⟨rfl, rfl⟩, fun _ _ => rfl⟩

/-- Counterexample to C2 as stated: on the length-1 series [1] with window 2,
the smoother returns 3 entries (`np.convolve` in valid mode emits
`window - N + 1` values when the series is shorter than the window, and the
`window - 1` pad is prepended on top), not a same-length series. -/
theorem moving_average_short_series_length_mismatch :
    moving_average [(1 : ℚ)] 2 = [none, some (1/2), some (1/2)] ∧
    (moving_average [(1 : ℚ)] 2).length ≠ [(1 : ℚ)].length := by
  constructor
  · simp [moving_average, convolveValid, dotProd, List.range_succ]
  · simp [moving_average, convolveValid, dotProd, List.range_succ]

/-- C2 (amended): for a series of length N ≥ 1 and integer window, if
window < 2 the smoother returns N absent values; if 2 ≤ window ≤ N it
returns a series of length N whose first window-1 positions are absent and
whose position i ≥ window-1 is the unweighted mean of the inputs at
positions i-window+1 .. i.  (When window > N the output instead has length
2*window - N, see the counterexample.) -/
theorem moving_average_trailing_mean (v : List ℚ) (w : Int) :
    (w < 2 → moving_average v w = v.map (fun _ => none)) ∧
    (2 ≤ w → w.toNat ≤ v.length →
      (moving_average v w).length = v.length ∧
      (∀ i : Nat, i < w.toNat - 1 → (moving_average v w)[i]? = some none) ∧
      (∀ i : Nat, w.toNat - 1 ≤ i → i < v.length →
        (moving_average v w)[i]? =
          some (some (((v.drop (i + 1 - w.toNat)).take w.toNat).sum / (w.toNat : ℚ))))) := by
  constructor
  · intro hlt
    rw [moving_average, if_pos (Or.inl (by omega))]
  · intro h2 hw
    have hw2 : 2 ≤ w.toNat := by omega
    have hne : v ≠ [] := by
      intro h
      rw [h] at hw
      simp at hw
      omega
    have hcond : ¬(w ≤ 1 ∨ v = []) := by
      push_neg
      exact ⟨by omega, hne⟩
    rw [moving_average, if_neg hcond]
    have hk : (List.replicate w.toNat ((1 : ℚ) / (w.toNat : ℚ))).length ≤ v.length := by
      simpa using hw
    rw [convolveValid, if_pos hk]
    simp only [List.length_replicate]
    refine ⟨?_, ?_, ?_⟩
    · simp only [List.length_append, List.length_replicate, List.length_map,
        List.length_range]
      omega
    · intro i hi
      rw [List.getElem?_append, if_pos (by simpa using hi)]
      simp [hi]
    · intro i h1i h2i
      rw [List.getElem?_append_right (by simpa using h1i)]
      simp only [List.length_replicate, List.getElem?_map]
      rw [List.getElem?_range (by omega)]
      simp only [Option.map_some']
      rw [List.reverse_replicate, dotProd_replicate]
      have hidx : i - (w.toNat - 1) = i + 1 - w.toNat := by omega
      rw [hidx, mul_one_div]

/-- Witness for C2 (amended) on the series [1,2,3,4] with window 2: position
2 holds the mean of entries 1 and 2. -/
theorem moving_average_trailing_mean_check :
    (2 : Int) ≤ 2 ∧ Int.toNat 2 ≤ [(1 : ℚ), 2, 3, 4].length ∧
    (moving_average [(1 : ℚ), 2, 3, 4] 2)[2]? = some (some (5/2)) := by
  refine ⟨le_rfl, by simp, ?_⟩
  have h := ((moving_average_trailing_mean [(1 : ℚ), 2, 3, 4] 2).2 le_rfl
    (by simp)).2.2 2 (by norm_num) (by norm_num)
  rw [h]
  have h2 : Int.toNat 2 = 2 := rfl
  rw [h2]
  norm_num

/-- C3: batched inference over a per-sentence classifier equals mapping the
classifier over the whole sequence at once: exactly N ordered results, with
`output[i]` the classifier value of `input[i]`, for every positive
batch size. -/
theorem run_inference_order_preserving {α : Type} (f : String → α)
    (s : List String) (bs : Nat) (hbs : 1 ≤ bs) :
    run_inference (fun xs => xs.map f) s bs = s.map f ∧
    (run_inference (fun xs => xs.map f) s bs).length = s.length ∧
    ∀ i : Nat, i < s.length →
      (run_inference (fun xs => xs.map f) s bs)[i]? = (s[i]?).map f := by
  have h := run_inference_map f bs hbs s
  refine ⟨h, by rw [h]; simp, ?_⟩
  intro i _
  rw [h, List.getElem?_map]

/-- Witness for C3: three sentences, batch size 2, length classifier. -/
theorem run_inference_order_preserving_check :
    1 ≤ 2 ∧
    run_inference (fun xs => xs.map String.length) ["aa", "b", "ccc"] 2 = [2, 1, 3] := by
  refine ⟨by norm_num, ?_⟩
  rw [(run_inference_order_preserving String.length ["aa", "b", "ccc"] 2 (by norm_num)).1]
  rfl

/-! ### Row/field helper lemmas -/

theorem mkRow_fields (d : Option (List (Int × String))) (i : Nat) (a : String)
    (res : HFResult) :
    (mkRow d i a res).sentence_index = i ∧
    (mkRow d i a res).sentence_text = a ∧
    (mkRow d i a res).raw_label = res.label ∧
    (mkRow d i a res).label_id = (resolve_label_name res.label d).2 ∧
    (mkRow d i a res).relevance_0_1 =
      round6 (relevance_0_to_1 (resolve_label_name res.label d).2 res.score) ∧
    (mkRow d i a res).relevance_m1_1 =
      round6 (relevance_minus1_to_1 (resolve_label_name res.label d).2 res.score) := by
  dsimp only [mkRow]
  exact ⟨rfl, rfl, rfl, rfl, rfl, rfl⟩

theorem band_zero_eval (c : ℚ) :
    relevance_0_to_1 (-1) c = max 0 (min 1 (c * (33/100))) ∧
    relevance_minus1_to_1 (-1) c = max (-1) (min 1 (-1 + c * (66/100))) := by
  constructor <;>
    norm_num [relevance_0_to_1, relevance_minus1_to_1, rel01_base, relm1_base]

theorem split_sentences_blank (text : String) (h : pyStrip text.data = []) :
    split_sentences text = [] := by
  rw [split_sentences, if_pos (by simp [h])]

/-- C4 (amended): on empty or whitespace-only input, segmentation returns the
empty sequence and the classifier is never invoked on any batch
(`run_inference` returns the empty result for any classifier); but the
pipeline does not halt: it produces zero rows and still writes a header-only
output table to the destination. -/
theorem empty_input_no_rows (f : String → HFResult) (d : Option (List (Int × String)))
    (text : String) (bs : Nat) (w : Int) (h : pyStrip text.data = []) :
    split_sentences text = [] ∧
    (∀ clf : List String → List HFResult,
      run_inference clf (split_sentences text) bs = []) ∧
    mainRows f d text bs w = [] ∧
    mainCsv f d text bs w = [csv_fieldnames] := by
  have hs : split_sentences text = [] := split_sentences_blank text h
  have hrows : mainRows f d text bs w = [] := by
    simp only [mainRows, hs, run_inference_nil, buildRows, rel01_series]
    simp
  refine ⟨hs, ?_, hrows, ?_⟩
  · intro clf
    rw [hs]
    exact run_inference_nil clf bs
  · unfold mainCsv write_csv
    rw [hrows]
    rfl

/-- Witness for C4 (amended) on the whitespace-only input " ". -/
theorem empty_input_no_rows_check :
    pyStrip (" ").data = [] ∧
    mainCsv (fun _ => ⟨"LABEL_2", 9/10⟩) none " " 32 20 = [csv_fieldnames] := by
  refine ⟨by decide, ?_⟩
  exact (empty_input_no_rows (fun _ => ⟨"LABEL_2", 9/10⟩) none " " 32 20
    (by decide)).2.2.2

/-- Counterexample to C4 as stated: on empty input the pipeline does write an
output table — the header row — so "nothing is written to the output
destination" fails. -/
theorem empty_input_header_csv_written :
    mainCsv (fun _ => ⟨"LABEL_2", 9/10⟩) none "" 32 20 = [csv_fieldnames] ∧
    csv_fieldnames ≠ [] := by
  constructor
  · have hs : split_sentences "" = [] := by decide
    simp only [mainCsv, write_csv, mainRows, hs, run_inference_nil, buildRows,
      rel01_series]
    simp
  · simp [csv_fieldnames]


theorem setMA_fields (r : Row) (m : Option ℚ) :
    ({ r with ma_relevance_0_1 := m }).sentence_index = r.sentence_index ∧
    ({ r with ma_relevance_0_1 := m }).sentence_text = r.sentence_text ∧
    ({ r with ma_relevance_0_1 := m }).raw_label = r.raw_label ∧
    ({ r with ma_relevance_0_1 := m }).label_id = r.label_id ∧
    ({ r with ma_relevance_0_1 := m }).relevance_0_1 = r.relevance_0_1 ∧
    ({ r with ma_relevance_0_1 := m }).relevance_m1_1 = r.relevance_m1_1 :=
  ⟨rfl, rfl, rfl, rfl, rfl, rfl⟩

/-- C5: with a per-sentence classifier, the pipeline emits exactly one row
per input sentence, in order; the written table has one record per sentence
plus the header; and a row whose label did not resolve (label_id = -1) still
appears, carrying the label-0 band scores (base 0.0 for [0,1], base -1.0 for
[-1,1]). -/
theorem rows_one_per_sentence (f : String → HFResult)
    (d : Option (List (Int × String))) (text : String) (bs : Nat) (w : Int)
    (hbs : 1 ≤ bs) :
    (mainRows f d text bs w).length = (split_sentences text).length ∧
    (mainCsv f d text bs w).length = (split_sentences text).length + 1 ∧
    ∀ i : Nat, i < (split_sentences text).length →
      ∃ r : Row, (mainRows f d text bs w)[i]? = some r ∧
        r.sentence_index = i ∧
        (split_sentences text)[i]? = some r.sentence_text ∧
        r.raw_label = (f r.sentence_text).label ∧
        r.label_id = (resolve_label_name (f r.sentence_text).label d).2 ∧
        (r.label_id = -1 →
          r.relevance_0_1 =
            round6 (max 0 (min 1 ((f r.sentence_text).score * (33/100)))) ∧
          r.relevance_m1_1 =
            round6 (max (-1) (min 1 (-1 + (f r.sentence_text).score * (66/100))))) := by
  have hres : run_inference (fun xs => xs.map f) (split_sentences text) bs
      = (split_sentences text).map f := run_inference_map f bs hbs _
  have hlen0 : (buildRows d 0 (split_sentences text)
      ((split_sentences text).map f)).length = (split_sentences text).length := by
    rw [buildRows_length]
    simp
  have hlen : (mainRows f d text bs w).length = (split_sentences text).length := by
    by_cases hc : 2 ≤ max 0 w ∧
        rel01_series d (split_sentences text) ((split_sentences text).map f) ≠ []
    · have hmain : mainRows f d text bs w =
          applyMA (buildRows d 0 (split_sentences text) ((split_sentences text).map f))
            (moving_average
              (rel01_series d (split_sentences text) ((split_sentences text).map f))
              (max 0 w)) := by
        simp only [mainRows, hres, if_pos hc]
      rw [hmain, applyMA_length]
      exact hlen0
    · have hmain : mainRows f d text bs w =
          buildRows d 0 (split_sentences text) ((split_sentences text).map f) := by
        simp only [mainRows, hres, if_neg hc]
      rw [hmain]
      exact hlen0
  refine ⟨hlen, ?_, ?_⟩
  · simp only [mainCsv, write_csv, List.length_cons, List.length_map]
    rw [hlen]
  · intro i hi
    obtain ⟨a, ha⟩ : ∃ a, (split_sentences text)[i]? = some a :=
      ⟨_, List.getElem?_eq_getElem hi⟩
    have hfa : ((split_sentences text).map f)[i]? = some (f a) := by
      rw [List.getElem?_map, ha]
      rfl
    have hb := buildRows_getElem? d (split_sentences text)
      ((split_sentences text).map f) 0 i a (f a) ha hfa
    rw [Nat.zero_add] at hb
    obtain ⟨m1, m2, m3, m4, m5, m6⟩ := mkRow_fields d i a (f a)
    have finish : ∀ r : Row,
        r.sentence_index = i →
        r.sentence_text = a →
        r.raw_label = (f a).label →
        r.label_id = (resolve_label_name (f a).label d).2 →
        r.relevance_0_1 =
          round6 (relevance_0_to_1 (resolve_label_name (f a).label d).2 (f a).score) →
        r.relevance_m1_1 =
          round6 (relevance_minus1_to_1 (resolve_label_name (f a).label d).2 (f a).score) →
        (r.sentence_index = i ∧
          (split_sentences text)[i]? = some r.sentence_text ∧
          r.raw_label = (f r.sentence_text).label ∧
          r.label_id = (resolve_label_name (f r.sentence_text).label d).2 ∧
          (r.label_id = -1 →
            r.relevance_0_1 =
              round6 (max 0 (min 1 ((f r.sentence_text).score * (33/100)))) ∧
            r.relevance_m1_1 =
              round6 (max (-1) (min 1 (-1 + (f r.sentence_text).score * (66/100)))))) := by
      intro r f1 f2 f3 f4 f5 f6
      refine ⟨f1, by rw [f2]; exact ha, by rw [f2]; exact f3, by rw [f2]; exact f4, ?_⟩
      intro hneg
      rw [f4] at hneg
      constructor
      · rw [f2, f5, hneg, (band_zero_eval (f a).score).1]
      · rw [f2, f6, hneg, (band_zero_eval (f a).score).2]
    by_cases hc : 2 ≤ max 0 w ∧
        rel01_series d (split_sentences text) ((split_sentences text).map f) ≠ []
    · have hmain : (mainRows f d text bs w)[i]? =
          (applyMA (buildRows d 0 (split_sentences text) ((split_sentences text).map f))
            (moving_average
              (rel01_series d (split_sentences text) ((split_sentences text).map f))
              (max 0 w)))[i]? := by
        simp only [mainRows, hres, if_pos hc]
      rw [hmain, applyMA_getElem?, hb]
      cases hma : (moving_average
          (rel01_series d (split_sentences text) ((split_sentences text).map f))
          (max 0 w))[i]? with
      | none =>
        exact ⟨mkRow d i a (f a), rfl, finish _ m1 m2 m3 m4 m5 m6⟩
      | some m =>
        obtain ⟨s1, s2, s3, s4, s5, s6⟩ := setMA_fields (mkRow d i a (f a)) (m.map round6)
        exact ⟨{ mkRow d i a (f a) with ma_relevance_0_1 := m.map round6 }, rfl,
          finish _ (s1.trans m1) (s2.trans m2) (s3.trans m3) (s4.trans m4)
            (s5.trans m5) (s6.trans m6)⟩
    · have hmain : (mainRows f d text bs w)[i]? =
          (buildRows d 0 (split_sentences text) ((split_sentences text).map f))[i]? := by
        simp only [mainRows, hres, if_neg hc]
      rw [hmain, hb]
      exact ⟨mkRow d i a (f a), rfl, finish _ m1 m2 m3 m4 m5 m6⟩

/-- A non-blank input with no split point segments to the single stripped
blob. -/
theorem split_sentences_single (text : String)
    (hne : pyStrip text.data ≠ [])
    (hns : hasSplitPoint (pyStrip text.data) = false) :
    split_sentences text = [String.mk (pyStrip text.data)] := by
  rw [split_sentences, if_neg (by simpa using hne)]
  unfold naive_sentence_split
  have hdata : (String.mk (pyStrip text.data)).data = pyStrip text.data := rfl
  rw [hdata, pyStrip_idem]
  rw [splitOnTerminalWs_no_split (pyStrip text.data) [] (by simpa using hns)]
  simp [pyStrip_idem, hne]

/-- Witness for C5: a single unpunctuated sentence, batch size 32; the
classifier label here does not resolve, and the row still appears. -/
theorem rows_one_per_sentence_check :
    1 ≤ 32 ∧
    (mainRows (fun _ => ⟨"oops", 1/2⟩) none "Hi there" 32 20).length = 1 := by
  refine ⟨by norm_num, ?_⟩
  rw [(rows_one_per_sentence (fun _ => ⟨"oops", 1/2⟩) none "Hi there" 32 20
    (by norm_num)).1]
  rw [split_sentences_single "Hi there" (by decide) (by decide)]
  rfl

/-- Counterexample to C9 as stated: for a row with an absent moving-average
cell, the serialized record's ninth cell is the empty string (csv writes
None as an empty field), so the absent cell is not emitted as a non-empty
explicit null marker. -/
theorem absent_ma_cell_empty_string :
    exampleRow.ma_relevance_0_1 = none ∧
    (rowRecord exampleRow)[8]? = some "" ∧
    ¬(∀ r : Row, r.ma_relevance_0_1 = none →
        ∀ s : String, (rowRecord r)[8]? = some s → s ≠ "") := by
  refine ⟨rfl, by simp [rowRecord, optCell, exampleRow], ?_⟩
  intro hclaim
  exact hclaim exampleRow rfl "" (by simp [rowRecord, optCell, exampleRow]) rfl

/-- C9 (amended): the relevance table carries exactly the columns
sentence_index, sentence_text, raw_label, label_id, label_name, score,
relevance_0_1, relevance_-1_1, ma_relevance_0_1 in that order, the
specificity table the specificity-named ones; every record has one cell per
column; and an absent moving-average cell is emitted as an empty field (the
csv writer serializes None as the empty string), not as a non-empty null
marker. -/
theorem csv_columns_and_null_cells :
    csv_fieldnames = ["sentence_index", "sentence_text", "raw_label", "label_id",
      "label_name", "score", "relevance_0_1", "relevance_-1_1",
      "ma_relevance_0_1"] ∧
    csv_fieldnames_s = ["sentence_index", "sentence_text", "raw_label", "label_id",
      "label_name", "score", "specificity_0_1", "specificity_-1_1",
      "ma_specificity_0_1"] ∧
    (∀ rows : List Row, (write_csv rows)[0]? = some csv_fieldnames ∧
      (write_csv_s rows)[0]? = some csv_fieldnames_s ∧
      (write_csv rows).length = rows.length + 1) ∧
    (∀ r : Row, (rowRecord r).length = csv_fieldnames.length ∧
      (r.ma_relevance_0_1 = none → (rowRecord r)[8]? = some "")) := by
  refine ⟨rfl, rfl, ?_, ?_⟩
  · intro rows
    exact ⟨by simp [write_csv], by simp [write_csv_s], by simp [write_csv]⟩
  · intro r
    refine ⟨rfl, ?_⟩
    intro h
    simp [rowRecord, optCell, h]

/-- Witness for C9 at a concrete row with an absent moving-average cell. -/
theorem csv_columns_and_null_cells_check :
    exampleRow.ma_relevance_0_1 = none ∧
    (rowRecord exampleRow)[8]? = some "" ∧
    (write_csv []).length = 1 := by
  refine ⟨rfl, (csv_columns_and_null_cells.2.2.2 exampleRow).2 rfl, ?_⟩
  exact (csv_columns_and_null_cells.2.2.1 []).2.2

/-- Pieces surviving the strip-and-filter step of `naive_sentence_split` are
non-empty and strip-idempotent. -/
theorem naive_pieces_clean (parts : List (List Char)) :
    ∀ s ∈ ((parts.map pyStrip).filter (fun q => !q.isEmpty)).map
      (fun p => String.mk p), s ≠ "" ∧ pyStrip s.data ≠ [] := by
  intro s hs
  obtain ⟨q, hqmem, rfl⟩ := List.mem_map.mp hs
  have hqf := List.mem_filter.mp hqmem
  obtain ⟨piece, _, rfl⟩ := List.mem_map.mp hqf.1
  have hq_ne : pyStrip piece ≠ [] := by
    intro habs
    rw [habs] at hqf
    simpa using hqf.2
  constructor
  · intro habs
    apply hq_ne
    have : (String.mk (pyStrip piece)).data = ("" : String).data := by rw [habs]
    simpa using this
  · have hdata : (String.mk (pyStrip piece)).data = pyStrip piece := rfl
    rw [hdata, pyStrip_idem]
    exact hq_ne

/-- Counterexample to C8 as stated: the whitespace-only input " " is a
non-empty input text, yet segmentation returns the empty sequence, not a
sequence of length at least 1 (and in particular not the one-element
sequence of the blob, although " " contains no terminal punctuation). -/
theorem whitespace_input_segmentation_empty :
    (" " : String) ≠ "" ∧ split_sentences " " = [] ∧
    ¬(1 ≤ (split_sentences " ").length) := by
  refine ⟨by decide, by decide, by decide⟩

/-- C8 (amended): for every input text that is non-empty after stripping,
segmentation returns at least one sentence, every returned sentence is
non-empty and still non-empty after stripping; and when the input contains
no sentence-terminal punctuation immediately followed by whitespace, the
result is the single-element sequence holding the whole stripped blob. -/
theorem segmentation_nonblank (text : String) (h : pyStrip text.data ≠ []) :
    1 ≤ (split_sentences text).length ∧
    (∀ s ∈ split_sentences text, s ≠ "" ∧ pyStrip s.data ≠ []) ∧
    (hasSplitPoint text.data = false →
      split_sentences text = [String.mk (pyStrip text.data)]) := by
  have hsplit : split_sentences text =
      (((splitOnTerminalWs (pyStrip text.data) []).map pyStrip).filter
        (fun q => !q.isEmpty)).map (fun p => String.mk p) := by
    rw [split_sentences, if_neg (by simpa using h)]
    unfold naive_sentence_split
    have hdata : (String.mk (pyStrip text.data)).data = pyStrip text.data := rfl
    rw [hdata, pyStrip_idem]
  refine ⟨?_, ?_, ?_⟩
  · cases hs0 : pyStrip text.data with
    | nil => exact absurd hs0 h
    | cons c t =>
      have hc : isPySpace c = false := pyStrip_head text.data c t hs0
      obtain ⟨p, rest, heq, hpre⟩ := splitOnTerminalWs_head_prefix t [c]
      obtain ⟨p2, hp2⟩ := hpre
      have hcp : c ∈ p := by
        rw [← hp2]
        simp
      have hpne : pyStrip p ≠ [] := pyStrip_ne_nil p c hcp hc
      have hstep : splitOnTerminalWs (c :: t) [] = splitOnTerminalWs t [c] := by
        rw [splitOnTerminalWs]
        simp [accEndsTerminal]
      rw [hsplit, hs0, hstep, heq]
      simp only [List.map_cons, List.filter_cons]
      rw [if_pos (by simpa using hpne)]
      simp
  · intro s hs
    rw [hsplit] at hs
    exact naive_pieces_clean _ s hs
  · intro hns
    have h1 : hasSplitPoint (text.data.dropWhile isPySpace) = false := by
      apply hasSplitPoint_append_right (text.data.takeWhile isPySpace)
      rw [List.takeWhile_append_dropWhile]
      exact hns
    have h2 : hasSplitPoint (pyStrip text.data) = false := by
      obtain ⟨u, hu⟩ := pyStrip_prefix text.data
      exact hasSplitPoint_append_left _ u (by rw [hu]; exact h1)
    exact split_sentences_single text h h2

/-- Witness for C8 (amended) on the unpunctuated blob "Hi there". -/
theorem segmentation_nonblank_check :
    pyStrip ("Hi there".data) ≠ [] ∧ hasSplitPoint ("Hi there".data) = false ∧
    split_sentences "Hi there" = ["Hi there"] := by
  refine ⟨by decide, by decide, ?_⟩
  have hr := (segmentation_nonblank "Hi there" (by decide)).2.2 (by decide)
  rw [hr]
  decide
